import Mathlib

/-!
Verification of the in-memory data-indexing and lookup layer of the
truth-dare-api repository, shallowly embedded in Lean 4.

Embedding conventions:
* Python strings are `List Char` (`Str`); `str.lower()` is `pyLower`
  (char-wise `Char.toLower`), `str.strip()` is `pyStrip`
  (drop whitespace from both ends), and the service-side key
  normalization `category.lower().strip()` is `pyNormalize`.
* A JSON record (a Python dict) is a `Record`: the keys the code reads or
  writes (`id`, `content`, `category`, `difficulty`, `type`) become fields,
  optional keys become `Option` fields (`none` models an absent key).
* A Python `dict` used as an index is an association list in insertion
  order (`Index`); `dict[k]` is `lookupIdx`, and the build loop
  `if k not in d: d[k] = []; d[k].append(r)` is `addToIndex`.
* The `DataCache` object is a `DataCache` structure; methods that mutate
  `self` return the updated structure.  The filesystem seen by
  `load_data` is a pair of `LoadSource` arguments (missing file,
  unparseable JSON, or a parsed record list).
* `random.choice(xs)` on a non-empty list is embedded as indexing with
  `n % xs.length` for an arbitrary `n : Nat` supplied by the caller, and
  the 50/50 coin of `get_random_choice` is an explicit `Bool` argument.
* Python exceptions become `Except ApiError` results; `ApiError.status`
  is the HTTP status code each exception class carries.
-/

/-- A Python string, embedded as its list of characters. -/
abbrev Str := List Char

/-- `str.lower()`: char-wise lowercasing (basic latin, as `Char.toLower`). -/
def pyLower (s : Str) : Str := s.map Char.toLower

/-- Whitespace test used by `str.strip()`. -/
def wsChar (c : Char) : Bool := c.isWhitespace

/-- `str.strip()`: remove whitespace from both ends. -/
def pyStrip (s : Str) : Str := (s.dropWhile wsChar).rdropWhile wsChar

/-- The key normalization `category.lower().strip()` done by the services. -/
def pyNormalize (s : Str) : Str := pyStrip (pyLower s)

/-- Python `sorted` on strings: lexicographic (code-point) order. -/
def sortStrs (l : List Str) : List Str := List.insertionSort (· ≤ ·) l

/-- Lexicographically sorted, in the code-point order Python `sorted` uses. -/
abbrev lexSorted (l : List Str) : Prop := List.Sorted (· ≤ ·) l

/-- `sum(d.values())` for a dict embedded as an association list. -/
def sumVals (xs : List (Str × Nat)) : Nat := (xs.map Prod.snd).sum

/-- A string all of whose characters are already lowercase. -/
abbrev strIsLower (s : Str) : Prop := pyLower s = s

/-- A truth/dare record: a JSON object with the keys the code touches.
`none` models an absent key.  `type` is the tag key that
`GameService.get_random_choice` writes into the dict it returns. -/
structure Record where
  id : Int
  content : Str
  category : Option Str := none
  difficulty : Option Str := none
  type : Option Str := none
deriving DecidableEq

/-- `truth.get("category", "general")` from `DataCache._build_indexes`. -/
def categoryKey (r : Record) : Str := r.category.getD ("general".data)

/-- `dare.get("difficulty", "medium")` from `DataCache._build_indexes`. -/
def difficultyKey (r : Record) : Str := r.difficulty.getD ("medium".data)

/-- A Python dict keyed by strings with list-of-record values, in
insertion order. -/
abbrev Index := List (Str × List Record)

/-- One iteration of the index-build loop:
`if k not in d: d[k] = []` followed by `d[k].append(r)`. -/
def addToIndex (idx : Index) (k : Str) (r : Record) : Index :=
  match idx with
  | [] => [(k, [r])]
  | (k', b) :: rest =>
    if k' = k then (k', b ++ [r]) :: rest else (k', b) :: addToIndex rest k r

/-- The whole build loop of `_build_indexes` for one record list,
parameterized by the bucket-key function. -/
def buildIndex (key : Record → Str) (records : List Record) : Index :=
  records.foldl (fun idx r => addToIndex idx (key r) r) []

/-- `d[k]` on an index dict (callers only use it after a `k in d` check;
a missing key yields `[]` here). -/
def lookupIdx : Index → Str → List Record
  | [], _ => []
  | (k', b) :: rest, k => if k' = k then b else lookupIdx rest k

/-- The `DataCache` object state: `_truths`, `_dares`,
`_truths_by_category`, `_dares_by_difficulty`, `_loaded`. -/
structure DataCache where
  truths : List Record
  dares : List Record
  truths_by_category : Index
  dares_by_difficulty : Index
  loaded : Bool
deriving DecidableEq

/-- `DataCache.__init__`: empty lists, empty indexes, not loaded. -/
def DataCache.init : DataCache := ⟨[], [], [], [], false⟩

/-- The exception classes of `app.core.exceptions`, with the detail
fields each constructor stores. -/
inductive ApiError where
  | validation (field : Str) (value : Str) (reason : Str)
  | categoryNotFound (requested : Str) (available : List Str)
  | difficultyNotFound (requested : Str) (available : List Str)
  | noData (filter_type : Str) (filter_value : Str)
deriving DecidableEq

/-- The HTTP status code each exception class is constructed with. -/
def ApiError.status : ApiError → Nat
  | .validation _ _ _ => 422
  | .categoryNotFound _ _ => 404
  | .difficultyNotFound _ _ => 404
  | .noData _ _ => 404

deriving instance DecidableEq for Except

/-- Whether a result is the defensive `NoDataAvailableError` outcome. -/
def isNoDataErr : Except ApiError Record → Bool
  | .error (.noData _ _) => true
  | _ => false

/-- Forget the `requested` detail field of a `CategoryNotFoundError`
result (that field carries the caller's original spelling of the key,
everything else is spelling-independent). -/
def stripRequested : Except ApiError Record → Except ApiError Record
  | .error (.categoryNotFound _ available) => .error (.categoryNotFound [] available)
  | r => r

/-- A `DataLoadError`: the file marker and reason the code puts in it. -/
structure DataLoadErr where
  file : Str
  reason : Str
deriving DecidableEq

/-- What one data file looks like to `load_data`: absent, present but not
valid JSON, or a parsed list of records. -/
inductive LoadSource where
  | missing
  | malformed
  | ok (records : List Record)

/-- `DataCache._build_indexes`: rebuild both indexes from the record
lists (no key normalization happens here: the bucket key is the raw
`category` / `difficulty` value, with the absent-key default). -/
def DataCache._build_indexes (c : DataCache) : DataCache :=
  { c with
    truths_by_category := buildIndex categoryKey c.truths
    dares_by_difficulty := buildIndex difficultyKey c.dares }

/-- `DataCache.load_data` over the two sources.  It mirrors the
statement order of the Python: the truths file is checked and parsed
(assigning `self._truths`) before the dares file is looked at, so a
dares-side failure leaves the new truths in place.  An in-body
`DataLoadError` for a missing file is caught by the generic
`except Exception` handler and re-wrapped with file marker `"Unknown"`;
a `json.JSONDecodeError` is wrapped with marker `"JSON file"` (the
Python reasons interpolate the inner exception text; the embedding
keeps the fixed prefix).  `_loaded` is set only after both parses and
the index build succeed. -/
def DataCache.load_data (c : DataCache) (ts ds : LoadSource) :
    DataCache × Option DataLoadErr :=
  match ts with
  | .missing => (c, some ⟨"Unknown".data, "Unexpected error".data⟩)
  | .malformed => (c, some ⟨"JSON file".data, "Invalid JSON format".data⟩)
  | .ok tr =>
    let c1 := { c with truths := tr }
    match ds with
    | .missing => (c1, some ⟨"Unknown".data, "Unexpected error".data⟩)
    | .malformed => (c1, some ⟨"JSON file".data, "Invalid JSON format".data⟩)
    | .ok dr =>
      let c2 := DataCache._build_indexes { c1 with dares := dr }
      ({ c2 with loaded := true }, none)

/-- `DataCache.ensure_loaded`: load only when not yet loaded. -/
def DataCache.ensure_loaded (c : DataCache) (ts ds : LoadSource) :
    DataCache × Option DataLoadErr :=
  if c.loaded then (c, none) else c.load_data ts ds

/-- `DataCache.get_random_truth` (on a loaded cache; `n` picks the
`random.choice` position). -/
def DataCache.get_random_truth (c : DataCache) (n : Nat) : Except ApiError Record :=
  if h : c.truths = [] then
    Except.error (ApiError.noData ("truths".data) ("any".data))
  else
    Except.ok (c.truths.get ⟨n % c.truths.length, Nat.mod_lt n (List.length_pos.mpr h)⟩)

/-- `DataCache.get_random_dare`. -/
def DataCache.get_random_dare (c : DataCache) (n : Nat) : Except ApiError Record :=
  if h : c.dares = [] then
    Except.error (ApiError.noData ("dares".data) ("any".data))
  else
    Except.ok (c.dares.get ⟨n % c.dares.length, Nat.mod_lt n (List.length_pos.mpr h)⟩)

/-- `DataCache.get_truth_by_category`: membership check against the key
list, then the defensive empty-bucket check, then a random pick. -/
def DataCache.get_truth_by_category (c : DataCache) (category : Str) (n : Nat) :
    Except ApiError Record :=
  let available_categories := c.truths_by_category.map Prod.fst
  if category ∈ available_categories then
    let category_truths := lookupIdx c.truths_by_category category
    if h : category_truths = [] then
      Except.error (ApiError.noData ("category".data) category)
    else
      Except.ok (category_truths.get
        ⟨n % category_truths.length, Nat.mod_lt n (List.length_pos.mpr h)⟩)
  else
    Except.error (ApiError.categoryNotFound category available_categories)

/-- `DataCache.get_dare_by_difficulty`. -/
def DataCache.get_dare_by_difficulty (c : DataCache) (difficulty : Str) (n : Nat) :
    Except ApiError Record :=
  let available_difficulties := c.dares_by_difficulty.map Prod.fst
  if difficulty ∈ available_difficulties then
    let difficulty_dares := lookupIdx c.dares_by_difficulty difficulty
    if h : difficulty_dares = [] then
      Except.error (ApiError.noData ("difficulty".data) difficulty)
    else
      Except.ok (difficulty_dares.get
        ⟨n % difficulty_dares.length, Nat.mod_lt n (List.length_pos.mpr h)⟩)
  else
    Except.error (ApiError.difficultyNotFound difficulty available_difficulties)

/-- `DataCache.get_available_categories`: `list(dict.keys())`. -/
def DataCache.get_available_categories (c : DataCache) : List Str :=
  c.truths_by_category.map Prod.fst

/-- `DataCache.get_available_difficulties`. -/
def DataCache.get_available_difficulties (c : DataCache) : List Str :=
  c.dares_by_difficulty.map Prod.fst

/-- The dict returned by `DataCache.get_stats`. -/
structure Stats where
  total_truths : Nat
  total_dares : Nat
  categories : List (Str × Nat)
  difficulties : List (Str × Nat)
deriving DecidableEq

/-- `DataCache.get_stats`: totals are the raw list lengths, the per-key
counts are the bucket sizes in index order. -/
def DataCache.get_stats (c : DataCache) : Stats :=
  ⟨c.truths.length, c.dares.length,
   c.truths_by_category.map (fun kb => (kb.1, kb.2.length)),
   c.dares_by_difficulty.map (fun kb => (kb.1, kb.2.length))⟩

/-- `TruthService.get_available_categories`: the cache keys, sorted. -/
def TruthService.get_available_categories (c : DataCache) : List Str :=
  sortStrs (DataCache.get_available_categories c)

/-- `TruthService.get_truth_by_category`: emptiness validation, then the
`lower().strip()` normalization, then the cache lookup; a
`CategoryNotFoundError` from the cache is re-raised carrying the
original (unnormalized) input and the sorted available keys. -/
def TruthService.get_truth_by_category (c : DataCache) (category : Str) (n : Nat) :
    Except ApiError Record :=
  if category = [] then
    Except.error (ApiError.validation ("category".data) category
      ("Category cannot be empty".data))
  else
    let normalized_category := pyNormalize category
    match DataCache.get_truth_by_category c normalized_category n with
    | .error (.categoryNotFound _ _) =>
      Except.error (ApiError.categoryNotFound category
        (TruthService.get_available_categories c))
    | r => r

/-- `TruthService.get_category_stats`: `get_stats()["categories"]`. -/
def TruthService.get_category_stats (c : DataCache) : List (Str × Nat) :=
  (DataCache.get_stats c).categories

/-- `DareService.get_available_difficulties`: the present elements of
easy/medium/hard first, then the remaining keys, each skipped when
already in the accumulated list (mirroring the two Python loops). -/
def DareService.get_available_difficulties (c : DataCache) : List Str :=
  let difficulties := DataCache.get_available_difficulties c
  let ordered_difficulties :=
    (["easy".data, "medium".data, "hard".data]).filter
      (fun level => decide (level ∈ difficulties))
  difficulties.foldl
    (fun acc level => if level ∈ acc then acc else acc ++ [level])
    ordered_difficulties

/-- `DareService.get_dare_by_difficulty`, symmetric to the truth side:
the re-raised `DifficultyNotFoundError` carries the original input and
the priority-ordered (not sorted) available keys. -/
def DareService.get_dare_by_difficulty (c : DataCache) (difficulty : Str) (n : Nat) :
    Except ApiError Record :=
  if difficulty = [] then
    Except.error (ApiError.validation ("difficulty".data) difficulty
      ("Difficulty cannot be empty".data))
  else
    let normalized_difficulty := pyNormalize difficulty
    match DataCache.get_dare_by_difficulty c normalized_difficulty n with
    | .error (.difficultyNotFound _ _) =>
      Except.error (ApiError.difficultyNotFound difficulty
        (DareService.get_available_difficulties c))
    | r => r

/-- `DareService.get_difficulty_stats`: `get_stats()["difficulties"]`. -/
def DareService.get_difficulty_stats (c : DataCache) : List (Str × Nat) :=
  (DataCache.get_stats c).difficulties

/-- The dict returned by `GameService.get_health_status` (the wall-clock
`timestamp` field is omitted; the success payload carries the two stats
dicts, the failure payload carries the error string instead). -/
structure HealthInfo where
  status : Str
  total_truths : Nat
  total_dares : Nat
  truth_categories : Nat
  dare_difficulties : Nat
  categories : Option (List (Str × Nat))
  difficulties : Option (List (Str × Nat))
  error : Option Str
deriving DecidableEq

/-- `GameService.get_health_status`.  The argument is the outcome of the
two stats calls inside the `try` block (`Except.error e` embeds any
exception one of them raised, with `e` its message); the surrounding
`except` clause is the `.error` branch, so the function is total —
it never raises. -/
def GameService.get_health_status
    (statsOutcome : Except Str (List (Str × Nat) × List (Str × Nat))) : HealthInfo :=
  match statsOutcome with
  | .ok (truth_stats, dare_stats) =>
    let total_truths := sumVals truth_stats
    let total_dares := sumVals dare_stats
    let status : Str := "healthy".data
    let status := if total_truths = 0 ∨ total_dares = 0 then "degraded".data else status
    let status := if total_truths = 0 ∧ total_dares = 0 then "unhealthy".data else status
    ⟨status, total_truths, total_dares, truth_stats.length, dare_stats.length,
     some truth_stats, some dare_stats, none⟩
  | .error e =>
    ⟨"unhealthy".data, 0, 0, 0, 0, none, none, some e⟩

/-- `GameService.get_random_choice` on a loaded cache.  `is_truth` is
the 50/50 coin, `n` the `random.choice` position.  In the Python,
`result` is the very dict object stored in the cache's record list, so
`result["type"] = ...` updates that stored record in place (the same
object is also aliased from the index bucket); the embedding returns
the cache with the list entry updated accordingly. -/
def GameService.get_random_choice (c : DataCache) (is_truth : Bool) (n : Nat) :
    DataCache × Except ApiError Record :=
  if is_truth then
    if h : c.truths = [] then
      (c, Except.error (ApiError.noData ("truths".data) ("any".data)))
    else
      let i : Fin c.truths.length := ⟨n % c.truths.length, Nat.mod_lt n (List.length_pos.mpr h)⟩
      let result := { c.truths.get i with type := some ("truth".data) }
      ({ c with truths := c.truths.set i result }, Except.ok result)
  else
    if h : c.dares = [] then
      (c, Except.error (ApiError.noData ("dares".data) ("any".data)))
    else
      let i : Fin c.dares.length := ⟨n % c.dares.length, Nat.mod_lt n (List.length_pos.mpr h)⟩
      let result := { c.dares.get i with type := some ("dare".data) }
      ({ c with dares := c.dares.set i result }, Except.ok result)

/-- The dict returned by `GameService.get_game_stats`. -/
structure GameStats where
  truths_total : Nat
  truths_categories : List (Str × Nat)
  available_categories : List Str
  dares_total : Nat
  dares_difficulties : List (Str × Nat)
  available_difficulties : List Str
  total_items : Nat
deriving DecidableEq

/-- `GameService.get_game_stats`. -/
def GameService.get_game_stats (c : DataCache) : GameStats :=
  let truth_stats := TruthService.get_category_stats c
  let dare_stats := DareService.get_difficulty_stats c
  ⟨sumVals truth_stats, truth_stats, TruthService.get_available_categories c,
   sumVals dare_stats, dare_stats, DareService.get_available_difficulties c,
   sumVals truth_stats + sumVals dare_stats⟩

/-- A successfully loaded cache: both indexes are exactly what
`_build_indexes` builds from the current record lists, and the loaded
flag is set.  Every cache produced by a successful `load_data` run
satisfies this (see `load_data_wellLoaded`). -/
abbrev DataCache.WellLoaded (c : DataCache) : Prop :=
  c.truths_by_category = buildIndex categoryKey c.truths ∧
  c.dares_by_difficulty = buildIndex difficultyKey c.dares ∧
  c.loaded = true

/-- Every bucket of an index is non-empty. -/
def allBucketsNonempty (idx : Index) : Bool :=
  idx.all (fun kb => decide (kb.2 ≠ []))

/-- Every record of `records` occurs in the bucket its key maps to. -/
def allInOwnBucket (key : Record → Str) (records : List Record) (idx : Index) : Bool :=
  records.all (fun r => decide (r ∈ lookupIdx idx (key r)))

/-- Every record held in a bucket has exactly that bucket's key. -/
def bucketsKeyConsistent (key : Record → Str) (idx : Index) : Bool :=
  idx.all (fun kb => kb.2.all (fun r => decide (key r = kb.1)))

/-- The order claimed for `DareService.get_available_difficulties`: the
present elements of easy/medium/hard first in that priority order, then
every remaining key in index-creation order. -/
def emhOrdered (keys : List Str) : List Str :=
  (["easy".data, "medium".data, "hard".data]).filter (fun level => decide (level ∈ keys)) ++
    keys.filter (fun k => decide (k ∉ ["easy".data, "medium".data, "hard".data]))

/-- Test fixture: a truth record in category `general`. -/
def truthGeneral : Record := ⟨1, "What is your biggest fear?".data, some ("general".data), none, none⟩

/-- Test fixture: a truth record in category `funny`. -/
def truthFunny : Record := ⟨2, "What is the silliest thing you own?".data, some ("funny".data), none, none⟩

/-- Test fixture: a truth record whose category value is upper-case. -/
def truthUpper : Record := ⟨3, "What makes you laugh?".data, some ("FUNNY".data), none, none⟩

/-- Test fixture: a dare record with difficulty `easy`. -/
def dareEasy : Record := ⟨1, "Sing a song".data, none, some ("easy".data), none⟩

/-- Test fixture: a dare record with a non-standard difficulty. -/
def dareSilly : Record := ⟨2, "Dance for a minute".data, none, some ("silly".data), none⟩

/-- Test fixture: a cache successfully loaded with two truths
(categories `general` and `funny`) and two dares (difficulties `easy`
and `silly`). -/
def loadedCache : DataCache :=
  (DataCache.init.load_data (.ok [truthGeneral, truthFunny]) (.ok [dareEasy, dareSilly])).1

/-! ### Facts about the key normalization `lower().strip()` -/

theorem char_toNat_ofNat (n : Nat) (h : n.isValidChar) : (Char.ofNat n).toNat = n := by
  unfold Char.ofNat
  rw [dif_pos h]
  rfl

theorem toLower_idem (c : Char) : c.toLower.toLower = c.toLower := by
  unfold Char.toLower
  by_cases h : c.toNat ≥ 65 ∧ c.toNat ≤ 90
  · rw [if_pos h]
    have ht : (Char.ofNat (c.toNat + 32)).toNat = c.toNat + 32 :=
      char_toNat_ofNat _ (Or.inl (by omega))
    rw [if_neg]
    omega
  · rw [if_neg h, if_neg h]

theorem char_decide_eq_false {a b : Char} (hab : a.toNat ≠ b.toNat) :
    decide (a = b) = false :=
  decide_eq_false (fun he => hab (congrArg Char.toNat he))

theorem toLower_ws (c : Char) : (Char.toLower c).isWhitespace = c.isWhitespace := by
  unfold Char.toLower
  by_cases h : c.toNat ≥ 65 ∧ c.toNat ≤ 90
  · rw [if_pos h]
    have ht : (Char.ofNat (c.toNat + 32)).toNat = c.toNat + 32 :=
      char_toNat_ofNat _ (Or.inl (by omega))
    have hsp : (' ' : Char).toNat = 32 := rfl
    have htb : ('\t' : Char).toNat = 9 := rfl
    have hcr : ('\x0d' : Char).toNat = 13 := rfl
    have hnl : ('\n' : Char).toNat = 10 := rfl
    simp only [Char.isWhitespace]
    rw [char_decide_eq_false (by rw [ht, hsp]; omega),
        char_decide_eq_false (by rw [ht, htb]; omega),
        char_decide_eq_false (by rw [ht, hcr]; omega),
        char_decide_eq_false (by rw [ht, hnl]; omega),
        char_decide_eq_false (by rw [hsp]; omega),
        char_decide_eq_false (by rw [htb]; omega),
        char_decide_eq_false (by rw [hcr]; omega),
        char_decide_eq_false (by rw [hnl]; omega)]
  · rw [if_neg h]

theorem wsChar_toLower (c : Char) : wsChar (Char.toLower c) = wsChar c := by
  simp [wsChar, toLower_ws]

theorem pyLower_idem (s : Str) : pyLower (pyLower s) = pyLower s := by
  simp only [pyLower, List.map_map]
  exact List.map_congr_left (fun a _ => toLower_idem a)

theorem pyLower_dropWhile (s : Str) :
    (pyLower s).dropWhile wsChar = pyLower (s.dropWhile wsChar) := by
  rw [pyLower, List.dropWhile_map]
  have : wsChar ∘ Char.toLower = wsChar := funext (fun c => wsChar_toLower c)
  rw [this]
  rfl

theorem pyLower_reverse (s : Str) : pyLower s.reverse = (pyLower s).reverse := by
  simp [pyLower, List.map_reverse]

theorem pyLower_rdropWhile (s : Str) :
    (pyLower s).rdropWhile wsChar = pyLower (s.rdropWhile wsChar) := by
  simp only [List.rdropWhile, ← pyLower_reverse, pyLower_dropWhile]

theorem pyLower_pyStrip (s : Str) : pyStrip (pyLower s) = pyLower (pyStrip s) := by
  rw [pyStrip, pyStrip, pyLower_dropWhile, pyLower_rdropWhile]

theorem dropWhile_pyStrip (s : Str) : (pyStrip s).dropWhile wsChar = pyStrip s := by
  rw [pyStrip]
  rcases hz : (s.dropWhile wsChar).rdropWhile wsChar with _ | ⟨a, t⟩
  · rfl
  · have hpre : (s.dropWhile wsChar).rdropWhile wsChar <+: s.dropWhile wsChar :=
      List.rdropWhile_prefix _ _
    rw [hz] at hpre
    obtain ⟨u, hu⟩ := hpre
    have hne : s.dropWhile wsChar ≠ [] := by
      intro hnil
      rw [hnil] at hu
      exact List.cons_ne_nil a (t ++ u) hu
    have hhead : (s.dropWhile wsChar).head? = some a := by
      rw [← hu]
      rfl
    have hna : wsChar a = false := by
      have h' := List.head?_dropWhile_not wsChar s
      rw [hhead] at h'
      exact h'
    rw [List.dropWhile_cons_of_neg (by simp [hna])]

theorem pyStrip_idem (s : Str) : pyStrip (pyStrip s) = pyStrip s := by
  conv_lhs => rw [pyStrip, dropWhile_pyStrip]
  rw [pyStrip, List.rdropWhile_idempotent]

theorem pyNormalize_idem (s : Str) : pyNormalize (pyNormalize s) = pyNormalize s := by
  simp only [pyNormalize]
  rw [pyLower_pyStrip, pyStrip_idem, ← pyLower_pyStrip, pyLower_idem]

theorem pyNormalize_ne_nil_of_ne {s : Str} (h : pyNormalize s ≠ []) : s ≠ [] := by
  intro hs
  rw [hs] at h
  exact h rfl

theorem pyNormalize_ws_nil {s : Str} (h : ∀ ch ∈ s, ch.isWhitespace) :
    pyNormalize s = [] := by
  have hdrop : (pyLower s).dropWhile wsChar = [] := by
    rw [List.dropWhile_eq_nil_iff]
    intro x hx
    obtain ⟨c, hc, rfl⟩ := List.mem_map.mp hx
    rw [wsChar, toLower_ws]
    exact h c hc
  rw [pyNormalize, pyStrip, hdrop, List.rdropWhile_nil]

/-! ### Facts about the index build -/

theorem addToIndex_keys (idx : Index) (k : Str) (r : Record) :
    (addToIndex idx k r).map Prod.fst =
      if k ∈ idx.map Prod.fst then idx.map Prod.fst else idx.map Prod.fst ++ [k] := by
  induction idx with
  | nil => simp [addToIndex]
  | cons kb rest ih =>
    obtain ⟨k', b⟩ := kb
    by_cases hk : k' = k
    · subst hk
      simp [addToIndex]
    · simp only [addToIndex, if_neg hk, List.map_cons, ih]
      by_cases hmem : k ∈ rest.map Prod.fst
      · rw [if_pos hmem, if_pos (by simp [hmem])]
      · have hnc : k ∉ (k' :: rest.map Prod.fst : List Str) := by
          intro hcon
          rcases List.mem_cons.mp hcon with h1 | h1
          · exact hk h1.symm
          · exact hmem h1
        rw [if_neg hmem, if_neg hnc]
        simp

theorem addToIndex_keys_nodup {idx : Index} (h : (idx.map Prod.fst).Nodup)
    (k : Str) (r : Record) : ((addToIndex idx k r).map Prod.fst).Nodup := by
  rw [addToIndex_keys]
  by_cases hmem : k ∈ idx.map Prod.fst
  · rwa [if_pos hmem]
  · rw [if_neg hmem]
    simp [List.nodup_append, h, hmem]

theorem buildIndex_keys_nodup (key : Record → Str) (records : List Record) :
    ((buildIndex key records).map Prod.fst).Nodup := by
  suffices h : ∀ (l : List Record) (idx : Index), (idx.map Prod.fst).Nodup →
      ((l.foldl (fun idx r => addToIndex idx (key r) r) idx).map Prod.fst).Nodup by
    exact h records [] (by simp)
  intro l
  induction l with
  | nil => intro idx h; exact h
  | cons a t ih =>
    intro idx h
    exact ih _ (addToIndex_keys_nodup h (key a) a)

theorem addToIndex_nonempty {idx : Index} (h : ∀ kb ∈ idx, kb.2 ≠ [])
    (k : Str) (r : Record) : ∀ kb ∈ addToIndex idx k r, kb.2 ≠ [] := by
  induction idx with
  | nil =>
    intro kb hkb
    simp only [addToIndex, List.mem_singleton] at hkb
    subst hkb
    simp
  | cons kb0 rest ih =>
    obtain ⟨k', b⟩ := kb0
    intro kb hkb
    by_cases hk : k' = k
    · simp only [addToIndex, if_pos hk, List.mem_cons] at hkb
      rcases hkb with rfl | hkb
      · simp
      · exact h kb (List.mem_cons_of_mem _ hkb)
    · simp only [addToIndex, if_neg hk, List.mem_cons] at hkb
      rcases hkb with rfl | hkb
      · exact h _ (List.mem_cons_self _ _)
      · exact ih (fun x hx => h x (List.mem_cons_of_mem _ hx)) kb hkb

theorem buildIndex_nonempty (key : Record → Str) (records : List Record) :
    ∀ kb ∈ buildIndex key records, kb.2 ≠ [] := by
  suffices h : ∀ (l : List Record) (idx : Index), (∀ kb ∈ idx, kb.2 ≠ []) →
      ∀ kb ∈ l.foldl (fun idx r => addToIndex idx (key r) r) idx, kb.2 ≠ [] by
    exact h records [] (by simp)
  intro l
  induction l with
  | nil => intro idx h; exact h
  | cons a t ih =>
    intro idx h
    exact ih _ (addToIndex_nonempty h (key a) a)

theorem addToIndex_keyConsistent {key : Record → Str} {idx : Index}
    (h : ∀ kb ∈ idx, ∀ x ∈ kb.2, key x = kb.1) {k : Str} {r : Record}
    (hr : key r = k) : ∀ kb ∈ addToIndex idx k r, ∀ x ∈ kb.2, key x = kb.1 := by
  induction idx with
  | nil =>
    intro kb hkb x hx
    simp only [addToIndex, List.mem_singleton] at hkb
    subst hkb
    simp only [List.mem_singleton] at hx
    subst hx
    exact hr
  | cons kb0 rest ih =>
    obtain ⟨k', b⟩ := kb0
    intro kb hkb x hx
    by_cases hk : k' = k
    · simp only [addToIndex, if_pos hk, List.mem_cons] at hkb
      rcases hkb with rfl | hkb
      · simp only [List.mem_append, List.mem_singleton] at hx
        rcases hx with hx | rfl
        · exact h (k', b) (List.mem_cons_self _ _) x hx
        · rw [hr, hk]
      · exact h kb (List.mem_cons_of_mem _ hkb) x hx
    · simp only [addToIndex, if_neg hk, List.mem_cons] at hkb
      rcases hkb with rfl | hkb
      · exact h _ (List.mem_cons_self _ _) x hx
      · exact ih (fun y hy => h y (List.mem_cons_of_mem _ hy)) kb hkb x hx

theorem buildIndex_keyConsistent (key : Record → Str) (records : List Record) :
    ∀ kb ∈ buildIndex key records, ∀ x ∈ kb.2, key x = kb.1 := by
  suffices h : ∀ (l : List Record) (idx : Index),
      (∀ kb ∈ idx, ∀ x ∈ kb.2, key x = kb.1) →
      ∀ kb ∈ l.foldl (fun idx r => addToIndex idx (key r) r) idx,
        ∀ x ∈ kb.2, key x = kb.1 by
    exact h records [] (by simp)
  intro l
  induction l with
  | nil => intro idx h; exact h
  | cons a t ih =>
    intro idx h
    exact ih _ (addToIndex_keyConsistent h rfl)

theorem lookupIdx_addToIndex_self (idx : Index) (k : Str) (r : Record) :
    r ∈ lookupIdx (addToIndex idx k r) k := by
  induction idx with
  | nil => simp [addToIndex, lookupIdx]
  | cons kb rest ih =>
    obtain ⟨k', b⟩ := kb
    by_cases hk : k' = k
    · simp [addToIndex, if_pos hk, lookupIdx, hk]
    · simp [addToIndex, if_neg hk, lookupIdx, hk, ih]

theorem lookupIdx_addToIndex_mono {idx : Index} {k0 : Str} {x : Record}
    (h : x ∈ lookupIdx idx k0) (k : Str) (r : Record) :
    x ∈ lookupIdx (addToIndex idx k r) k0 := by
  induction idx with
  | nil => simp [lookupIdx] at h
  | cons kb rest ih =>
    obtain ⟨k', b⟩ := kb
    by_cases hk : k' = k
    · by_cases hk0 : k' = k0
      · simp only [lookupIdx, if_pos hk0] at h
        simp only [addToIndex, if_pos hk, lookupIdx, if_pos hk0]
        exact List.mem_append_left _ h
      · simp only [lookupIdx, if_neg hk0] at h
        simpa only [addToIndex, if_pos hk, lookupIdx, if_neg hk0] using h
    · by_cases hk0 : k' = k0
      · simp only [lookupIdx, if_pos hk0] at h
        simpa only [addToIndex, if_neg hk, lookupIdx, if_pos hk0] using h
      · simp only [lookupIdx, if_neg hk0] at h
        simpa only [addToIndex, if_neg hk, lookupIdx, if_neg hk0] using ih h

theorem buildIndex_mem_own (key : Record → Str) (records : List Record) :
    ∀ r ∈ records, r ∈ lookupIdx (buildIndex key records) (key r) := by
  suffices h : ∀ (l : List Record) (idx : Index) (r : Record),
      (r ∈ lookupIdx idx (key r) ∨ r ∈ l) →
      r ∈ lookupIdx (l.foldl (fun idx r => addToIndex idx (key r) r) idx) (key r) by
    intro r hr
    exact h records [] r (Or.inr hr)
  intro l
  induction l with
  | nil =>
    intro idx r h
    rcases h with h | h
    · exact h
    · simp at h
  | cons a t ih =>
    intro idx r h
    rcases h with h | h
    · exact ih _ r (Or.inl (lookupIdx_addToIndex_mono h (key a) a))
    · rcases List.mem_cons.mp h with rfl | h
      · exact ih _ r (Or.inl (lookupIdx_addToIndex_self idx (key r) r))
      · exact ih _ r (Or.inr h)

theorem lookupIdx_mem {idx : Index} {k : Str} (h : k ∈ idx.map Prod.fst) :
    (k, lookupIdx idx k) ∈ idx := by
  induction idx with
  | nil => simp at h
  | cons kb rest ih =>
    obtain ⟨k', b⟩ := kb
    by_cases hk : k' = k
    · subst hk
      simp [lookupIdx]
    · simp only [List.map_cons, List.mem_cons] at h
      rcases h with h | h
      · exact absurd h.symm hk
      · simp only [lookupIdx, if_neg hk]
        exact List.mem_cons_of_mem _ (ih h)

theorem addToIndex_sumSizes (idx : Index) (k : Str) (r : Record) :
    ((addToIndex idx k r).map (fun kb => kb.2.length)).sum =
      (idx.map (fun kb => kb.2.length)).sum + 1 := by
  induction idx with
  | nil => simp [addToIndex]
  | cons kb rest ih =>
    obtain ⟨k', b⟩ := kb
    by_cases hk : k' = k
    · simp [addToIndex, if_pos hk]
      omega
    · simp [addToIndex, if_neg hk, ih]
      omega

theorem buildIndex_sumSizes (key : Record → Str) (records : List Record) :
    ((buildIndex key records).map (fun kb => kb.2.length)).sum = records.length := by
  suffices h : ∀ (l : List Record) (idx : Index),
      ((l.foldl (fun idx r => addToIndex idx (key r) r) idx).map
        (fun kb => kb.2.length)).sum = (idx.map (fun kb => kb.2.length)).sum + l.length by
    simpa using h records []
  intro l
  induction l with
  | nil => intro idx; simp
  | cons a t ih =>
    intro idx
    rw [List.foldl_cons, ih, addToIndex_sumSizes]
    simp
    omega

/-! ### The difficulty-ordering fold and further shared facts -/

theorem fold_skip_mem (keys : List Str) :
    ∀ (base extra : List Str), keys.Nodup → (∀ k ∈ keys, k ∉ extra) →
    keys.foldl (fun acc level => if level ∈ acc then acc else acc ++ [level])
        (base ++ extra) =
      base ++ extra ++ keys.filter (fun k => decide (k ∉ base)) := by
  induction keys with
  | nil => intro base extra _ _; simp
  | cons a t ih =>
    intro base extra hnd hext
    have hna : a ∉ extra := hext a (List.mem_cons_self _ _)
    have hndt : t.Nodup := (List.nodup_cons.mp hnd).2
    have hat : a ∉ t := (List.nodup_cons.mp hnd).1
    rw [List.foldl_cons]
    by_cases hb : a ∈ base
    · have hmem : a ∈ base ++ extra := List.mem_append_left _ hb
      rw [if_pos hmem, ih base extra hndt (fun k hk => hext k (List.mem_cons_of_mem _ hk))]
      have hfa : decide (a ∉ base) = false := by simp [hb]
      simp [List.filter_cons, hfa]
      rw [if_pos hb]
    · have hmem : a ∉ base ++ extra := by
        intro hcon
        rcases List.mem_append.mp hcon with h1 | h1
        · exact hb h1
        · exact hna h1
      rw [if_neg hmem]
      have hstep : base ++ extra ++ [a] = base ++ (extra ++ [a]) := by
        simp [List.append_assoc]
      rw [hstep, ih base (extra ++ [a]) hndt ?_]
      · have hfa : decide (a ∉ base) = true := by simp [hb]
        simp [List.filter_cons, hfa, List.append_assoc]
        rw [if_neg hb]
      · intro k hk hcon
        rcases List.mem_append.mp hcon with h1 | h1
        · exact hext k (List.mem_cons_of_mem _ hk) h1
        · rw [List.mem_singleton] at h1
          subst h1
          exact hat hk

theorem load_data_wellLoaded (c : DataCache) (ts ds : LoadSource)
    (h : (c.load_data ts ds).2 = none) : (c.load_data ts ds).1.WellLoaded := by
  cases ts with
  | missing => simp [DataCache.load_data] at h
  | malformed => simp [DataCache.load_data] at h
  | ok tr =>
    cases ds with
    | missing => simp [DataCache.load_data] at h
    | malformed => simp [DataCache.load_data] at h
    | ok dr =>
      refine ⟨?_, ?_, ?_⟩ <;> simp [DataCache.load_data, DataCache._build_indexes]

theorem sumVals_sizes (idx : Index) :
    sumVals (idx.map (fun kb => (kb.1, kb.2.length))) =
      (idx.map (fun kb => kb.2.length)).sum := by
  simp [sumVals, List.map_map]
  rfl

/-! ### Service-level lookup lemmas -/

theorem truth_notFound (c : DataCache) (category : Str) (n : Nat)
    (hne : category ≠ [])
    (hnk : pyNormalize category ∉ c.truths_by_category.map Prod.fst) :
    TruthService.get_truth_by_category c category n =
      Except.error (ApiError.categoryNotFound category
        (TruthService.get_available_categories c)) := by
  simp only [TruthService.get_truth_by_category, if_neg hne,
    DataCache.get_truth_by_category, if_neg hnk]

theorem dare_notFound (c : DataCache) (difficulty : Str) (n : Nat)
    (hne : difficulty ≠ [])
    (hnk : pyNormalize difficulty ∉ c.dares_by_difficulty.map Prod.fst) :
    DareService.get_dare_by_difficulty c difficulty n =
      Except.error (ApiError.difficultyNotFound difficulty
        (DareService.get_available_difficulties c)) := by
  simp only [DareService.get_dare_by_difficulty, if_neg hne,
    DataCache.get_dare_by_difficulty, if_neg hnk]

theorem cache_truth_no_noData (c : DataCache)
    (h : ∀ kb ∈ c.truths_by_category, kb.2 ≠ []) (category : Str) (n : Nat) :
    isNoDataErr (DataCache.get_truth_by_category c category n) = false := by
  simp only [DataCache.get_truth_by_category]
  by_cases hmem : category ∈ c.truths_by_category.map Prod.fst
  · rw [if_pos hmem]
    have hbne : lookupIdx c.truths_by_category category ≠ [] :=
      h _ (lookupIdx_mem hmem)
    rw [dif_neg hbne]
    rfl
  · rw [if_neg hmem]
    rfl

theorem cache_dare_no_noData (c : DataCache)
    (h : ∀ kb ∈ c.dares_by_difficulty, kb.2 ≠ []) (difficulty : Str) (n : Nat) :
    isNoDataErr (DataCache.get_dare_by_difficulty c difficulty n) = false := by
  simp only [DataCache.get_dare_by_difficulty]
  by_cases hmem : difficulty ∈ c.dares_by_difficulty.map Prod.fst
  · rw [if_pos hmem]
    have hbne : lookupIdx c.dares_by_difficulty difficulty ≠ [] :=
      h _ (lookupIdx_mem hmem)
    rw [dif_neg hbne]
    rfl
  · rw [if_neg hmem]
    rfl

/-! ### Claims -/

/-- Claim C1, counterexample: a store is loaded successfully from a
record whose category value is `"FUNNY"`, and the resulting category
index has `"FUNNY"` itself — not a lowercase string — as its key:
`_build_indexes` applies no lowercasing. -/
theorem C1_counterexample :
    (DataCache.init.load_data (.ok [truthUpper]) (.ok [dareEasy])).2 = none ∧
    ((DataCache.init.load_data (.ok [truthUpper]) (.ok [dareEasy])).1.truths_by_category.map
      Prod.fst) = [("FUNNY".data)] ∧
    ¬ strIsLower ("FUNNY".data) := by
  decide

/-- Claim C1 (amended): at index-build time every truth record is placed
in the bucket keyed by its raw `category` value (defaulting to
`"general"` when the field is absent) and every dare record in the
bucket keyed by its raw `difficulty` value (defaulting to `"medium"`),
with no lowercase normalization applied; hence index keys are exactly
the raw (defaulted) field values and are lowercase only when the source
data is. -/
theorem C1_raw_key_indexing (c : DataCache) (h : c.WellLoaded) :
    allInOwnBucket categoryKey c.truths c.truths_by_category = true ∧
    bucketsKeyConsistent categoryKey c.truths_by_category = true ∧
    allInOwnBucket difficultyKey c.dares c.dares_by_difficulty = true ∧
    bucketsKeyConsistent difficultyKey c.dares_by_difficulty = true := by
  obtain ⟨h1, h2, -⟩ := h
  refine ⟨?_, ?_, ?_, ?_⟩
  · rw [h1]
    simp only [allInOwnBucket, List.all_eq_true, decide_eq_true_eq]
    exact buildIndex_mem_own categoryKey c.truths
  · rw [h1]
    simp only [bucketsKeyConsistent, List.all_eq_true, decide_eq_true_eq]
    exact buildIndex_keyConsistent categoryKey c.truths
  · rw [h2]
    simp only [allInOwnBucket, List.all_eq_true, decide_eq_true_eq]
    exact buildIndex_mem_own difficultyKey c.dares
  · rw [h2]
    simp only [bucketsKeyConsistent, List.all_eq_true, decide_eq_true_eq]
    exact buildIndex_keyConsistent difficultyKey c.dares

/-- Witness for the amended claim C1, on a concretely loaded store. -/
theorem C1_raw_key_indexing_witness :
    loadedCache.WellLoaded ∧
    (allInOwnBucket categoryKey loadedCache.truths loadedCache.truths_by_category = true ∧
     bucketsKeyConsistent categoryKey loadedCache.truths_by_category = true ∧
     allInOwnBucket difficultyKey loadedCache.dares loadedCache.dares_by_difficulty = true ∧
     bucketsKeyConsistent difficultyKey loadedCache.dares_by_difficulty = true) :=
  ⟨by decide, C1_raw_key_indexing loadedCache (by decide)⟩

/-- Claim C2: the code violates the no-mutation guarantee.  On a loaded
store, `get_random_choice` does tag its result with `type = "truth"`,
but the tagged dict is the very object held in the cache's truth list,
so the stored record changes: the truth list after the call differs
from the list before it. -/
theorem C2_mutation_failing_input :
    (GameService.get_random_choice loadedCache true 0).2 =
      Except.ok ⟨1, "What is your biggest fear?".data, some ("general".data), none,
        some ("truth".data)⟩ ∧
    (GameService.get_random_choice loadedCache true 0).1.truths ≠ loadedCache.truths := by
  decide

/-- Claim C3, counterexample: when the truths file parses but the dares
file is missing, `load_data` raises a `DataLoadError`, yet the
in-memory truth list has already been replaced — the cache state is not
exactly as before the call. -/
theorem C3_counterexample :
    (DataCache.init.load_data (.ok [truthGeneral]) LoadSource.missing).2.isSome = true ∧
    (DataCache.init.load_data (.ok [truthGeneral]) LoadSource.missing).1.truths ≠
      DataCache.init.truths := by
  decide

/-- Claim C3 (amended): if `load_data` fails on a not-yet-loaded cache
it returns a typed `DataLoadError`; the loaded flag stays false, the
dare list and both indexes are untouched, and a subsequent
`ensure_loaded` retries the load rather than reusing stale data — but
the truth list may already have been replaced when the failure happened
on the dares side. -/
theorem C3_failed_load_retries (c : DataCache) (ts ds ts2 ds2 : LoadSource)
    (hl : c.loaded = false) (hf : (c.load_data ts ds).2.isSome = true) :
    (c.load_data ts ds).1.loaded = false ∧
    (c.load_data ts ds).1.dares = c.dares ∧
    (c.load_data ts ds).1.truths_by_category = c.truths_by_category ∧
    (c.load_data ts ds).1.dares_by_difficulty = c.dares_by_difficulty ∧
    ((c.load_data ts ds).1).ensure_loaded ts2 ds2 = ((c.load_data ts ds).1).load_data ts2 ds2 := by
  cases ts with
  | missing =>
    exact ⟨hl, rfl, rfl, rfl, by simp [DataCache.ensure_loaded, DataCache.load_data, hl]⟩
  | malformed =>
    exact ⟨hl, rfl, rfl, rfl, by simp [DataCache.ensure_loaded, DataCache.load_data, hl]⟩
  | ok tr =>
    cases ds with
    | missing =>
      exact ⟨hl, rfl, rfl, rfl, by simp [DataCache.ensure_loaded, DataCache.load_data, hl]⟩
    | malformed =>
      exact ⟨hl, rfl, rfl, rfl, by simp [DataCache.ensure_loaded, DataCache.load_data, hl]⟩
    | ok dr =>
      simp [DataCache.load_data] at hf

/-- Witness for the amended claim C3: a concrete failing load on the
fresh cache. -/
theorem C3_failed_load_retries_witness :
    DataCache.init.loaded = false ∧
    (DataCache.init.load_data (.ok [truthGeneral]) LoadSource.missing).2.isSome = true ∧
    ((DataCache.init.load_data (.ok [truthGeneral]) LoadSource.missing).1.loaded = false ∧
     (DataCache.init.load_data (.ok [truthGeneral]) LoadSource.missing).1.dares =
       DataCache.init.dares ∧
     (DataCache.init.load_data (.ok [truthGeneral]) LoadSource.missing).1.truths_by_category =
       DataCache.init.truths_by_category ∧
     (DataCache.init.load_data (.ok [truthGeneral]) LoadSource.missing).1.dares_by_difficulty =
       DataCache.init.dares_by_difficulty ∧
     ((DataCache.init.load_data (.ok [truthGeneral]) LoadSource.missing).1).ensure_loaded
         (.ok [truthGeneral]) (.ok [dareEasy]) =
       ((DataCache.init.load_data (.ok [truthGeneral]) LoadSource.missing).1).load_data
         (.ok [truthGeneral]) (.ok [dareEasy])) :=
  ⟨by decide, by decide,
   C3_failed_load_retries DataCache.init (.ok [truthGeneral]) LoadSource.missing
     (.ok [truthGeneral]) (.ok [dareEasy]) (by decide) (by decide)⟩

/-- Claim C4: `get_health_status` is total (it never raises: an internal
failure is the `Except.error` argument case and produces a payload, not
an exception); on failure the status is `"unhealthy"` with the error
string attached, and on success the status is derived first-match-wins:
`"unhealthy"` when both totals are zero, `"degraded"` when exactly one
is zero, `"healthy"` otherwise. -/
theorem C4_health_status_derivation (e : Str) (ts ds : List (Str × Nat)) :
    (GameService.get_health_status (Except.error e)).status = ("unhealthy".data) ∧
    (GameService.get_health_status (Except.error e)).error = some e ∧
    (GameService.get_health_status (Except.ok (ts, ds))).status =
      (if sumVals ts = 0 ∧ sumVals ds = 0 then ("unhealthy".data)
       else if (sumVals ts = 0 ∧ sumVals ds ≠ 0) ∨ (sumVals ts ≠ 0 ∧ sumVals ds = 0) then
         ("degraded".data)
       else ("healthy".data)) := by
  refine ⟨rfl, rfl, ?_⟩
  by_cases ha : sumVals ts = 0 <;> by_cases hb : sumVals ds = 0 <;>
    simp [GameService.get_health_status, ha, hb]

/-- Claim C5: on a successfully loaded store the statistics are
consistent: the per-category counts of `get_stats` sum to the truth
total, the per-difficulty counts sum to the dare total, and in the
combined stats `total_items` is the truth total plus the dare total. -/
theorem C5_stats_consistent (c : DataCache) (h : c.WellLoaded) :
    sumVals (DataCache.get_stats c).categories = (DataCache.get_stats c).total_truths ∧
    sumVals (DataCache.get_stats c).difficulties = (DataCache.get_stats c).total_dares ∧
    (GameService.get_game_stats c).total_items =
      (GameService.get_game_stats c).truths_total + (GameService.get_game_stats c).dares_total := by
  obtain ⟨h1, h2, -⟩ := h
  refine ⟨?_, ?_, rfl⟩
  · show sumVals (c.truths_by_category.map (fun kb => (kb.1, kb.2.length))) = c.truths.length
    rw [h1, sumVals_sizes, buildIndex_sumSizes]
  · show sumVals (c.dares_by_difficulty.map (fun kb => (kb.1, kb.2.length))) = c.dares.length
    rw [h2, sumVals_sizes, buildIndex_sumSizes]

/-- Witness for claim C5 on a concretely loaded store. -/
theorem C5_stats_consistent_witness :
    loadedCache.WellLoaded ∧
    (sumVals (DataCache.get_stats loadedCache).categories =
       (DataCache.get_stats loadedCache).total_truths ∧
     sumVals (DataCache.get_stats loadedCache).difficulties =
       (DataCache.get_stats loadedCache).total_dares ∧
     (GameService.get_game_stats loadedCache).total_items =
       (GameService.get_game_stats loadedCache).truths_total +
         (GameService.get_game_stats loadedCache).dares_total) :=
  ⟨by decide, C5_stats_consistent loadedCache (by decide)⟩

/-- Claim C6: on a loaded store the difficulty enumeration lists the
present elements of easy/medium/hard first, in that priority order,
followed by the remaining keys in index-creation order, while the
category enumeration is lexicographically sorted. -/
theorem C6_enumeration_order (c : DataCache) (h : c.WellLoaded) :
    DareService.get_available_difficulties c =
      emhOrdered (DataCache.get_available_difficulties c) ∧
    lexSorted (TruthService.get_available_categories c) := by
  obtain ⟨-, h2, -⟩ := h
  constructor
  · have hnd : (DataCache.get_available_difficulties c).Nodup := by
      rw [DataCache.get_available_difficulties, h2]
      exact buildIndex_keys_nodup difficultyKey c.dares
    have hfold := fold_skip_mem (DataCache.get_available_difficulties c)
      ((["easy".data, "medium".data, "hard".data]).filter
        (fun level => decide (level ∈ DataCache.get_available_difficulties c)))
      [] hnd (fun k _ => List.not_mem_nil k)
    rw [List.append_nil] at hfold
    simp only [DareService.get_available_difficulties]
    rw [hfold, emhOrdered]
    congr 1
    refine List.filter_congr ?_
    intro x hx
    have hiff : x ∉ (["easy".data, "medium".data, "hard".data]).filter
          (fun level => decide (level ∈ DataCache.get_available_difficulties c)) ↔
        x ∉ (["easy".data, "medium".data, "hard".data] : List Str) := by
      refine not_congr ?_
      constructor
      · intro hxb
        exact (List.mem_filter.mp hxb).1
      · intro hxe
        exact List.mem_filter.mpr ⟨hxe, by simp [hx]⟩
    simp [hiff]
    intro hcon
    exact absurd hx hcon
  · exact List.sorted_insertionSort _ _

/-- Witness for claim C6 on a concretely loaded store (difficulties
`easy` then `silly`, categories sorted as `funny`, `general`). -/
theorem C6_enumeration_order_witness :
    loadedCache.WellLoaded ∧
    (DareService.get_available_difficulties loadedCache =
       emhOrdered (DataCache.get_available_difficulties loadedCache) ∧
     lexSorted (TruthService.get_available_categories loadedCache)) :=
  ⟨by decide, C6_enumeration_order loadedCache (by decide)⟩

/-- Claim C7, counterexample: the whitespace-only input `"   "` is a
non-empty string, yet it does not fail the same way as its normalized
key.  The original input reaches the lookup and raises
`CategoryNotFoundError`, while its normalized form (the empty string)
is rejected up front with `ValidationError`. -/
theorem C7_counterexample :
    ("   ".data : Str) ≠ [] ∧
    pyNormalize ("   ".data) = [] ∧
    TruthService.get_truth_by_category loadedCache ("   ".data) 0 =
      Except.error (ApiError.categoryNotFound ("   ".data)
        [("funny".data), ("general".data)]) ∧
    TruthService.get_truth_by_category loadedCache (pyNormalize ("   ".data)) 0 =
      Except.error (ApiError.validation ("category".data) []
        ("Category cannot be empty".data)) := by
  decide

/-- Claim C7 (amended): `get_truth_by_category` performs its lookup on
the trimmed, lowercased form of the input; for every input whose
normalized form is non-empty it selects from the same bucket — and
fails with the same error kind and detail — as the already-normalized
key, up to the `requested` field of a `CategoryNotFoundError`, which
carries the caller's original spelling.  (For inputs normalizing to the
empty string the two calls differ: see the counterexample.) -/
theorem C7_lookup_on_normalized (c : DataCache) (category : Str) (n : Nat)
    (h : pyNormalize category ≠ []) :
    stripRequested (TruthService.get_truth_by_category c category n) =
      stripRequested (TruthService.get_truth_by_category c (pyNormalize category) n) := by
  have hc : category ≠ [] := pyNormalize_ne_nil_of_ne h
  simp only [TruthService.get_truth_by_category, if_neg hc, if_neg h, pyNormalize_idem]
  cases hres : DataCache.get_truth_by_category c (pyNormalize category) n with
  | ok r => rfl
  | error err => cases err <;> rfl

/-- Witness for the amended claim C7, at the spec example `"FUNNY "`. -/
theorem C7_lookup_on_normalized_witness :
    pyNormalize ("FUNNY ".data) ≠ [] ∧
    stripRequested (TruthService.get_truth_by_category loadedCache ("FUNNY ".data) 0) =
      stripRequested (TruthService.get_truth_by_category loadedCache
        (pyNormalize ("FUNNY ".data)) 0) :=
  ⟨by decide, C7_lookup_on_normalized loadedCache ("FUNNY ".data) 0 (by decide)⟩

/-- Claim C8: when the normalized key has no bucket, the service fails
with `CategoryNotFoundError` (status 404) whose detail carries the
original unnormalized input and the available category keys in
lexicographically sorted order. -/
theorem C8_not_found_detail (c : DataCache) (category : Str) (n : Nat)
    (h1 : category ≠ [])
    (h2 : pyNormalize category ∉ c.truths_by_category.map Prod.fst) :
    TruthService.get_truth_by_category c category n =
      Except.error (ApiError.categoryNotFound category
        (TruthService.get_available_categories c)) ∧
    TruthService.get_available_categories c =
      sortStrs (DataCache.get_available_categories c) ∧
    lexSorted (TruthService.get_available_categories c) ∧
    ApiError.status (ApiError.categoryNotFound category
      (TruthService.get_available_categories c)) = 404 :=
  ⟨truth_notFound c category n h1 h2, rfl, List.sorted_insertionSort _ _, rfl⟩

/-- Witness for claim C8: `"nonexistent"` against a store whose only
categories are `general` and `funny`, reported sorted. -/
theorem C8_not_found_detail_witness :
    ("nonexistent".data : Str) ≠ [] ∧
    pyNormalize ("nonexistent".data) ∉ loadedCache.truths_by_category.map Prod.fst ∧
    (TruthService.get_truth_by_category loadedCache ("nonexistent".data) 0 =
       Except.error (ApiError.categoryNotFound ("nonexistent".data)
         (TruthService.get_available_categories loadedCache)) ∧
     TruthService.get_available_categories loadedCache =
       sortStrs (DataCache.get_available_categories loadedCache) ∧
     lexSorted (TruthService.get_available_categories loadedCache) ∧
     ApiError.status (ApiError.categoryNotFound ("nonexistent".data)
       (TruthService.get_available_categories loadedCache)) = 404) :=
  ⟨by decide, by decide,
   C8_not_found_detail loadedCache ("nonexistent".data) 0 (by decide) (by decide)⟩

/-- Claim C9: after a successful load every bucket of both indexes is
non-empty, so the defensive empty-bucket `NoDataAvailableError` branch
of the two filtered lookups can never be taken. -/
theorem C9_no_empty_buckets (c : DataCache) (h : c.WellLoaded)
    (category difficulty : Str) (n m : Nat) :
    allBucketsNonempty c.truths_by_category = true ∧
    allBucketsNonempty c.dares_by_difficulty = true ∧
    isNoDataErr (DataCache.get_truth_by_category c category n) = false ∧
    isNoDataErr (DataCache.get_dare_by_difficulty c difficulty m) = false := by
  obtain ⟨h1, h2, -⟩ := h
  have hbt : ∀ kb ∈ c.truths_by_category, kb.2 ≠ [] := by
    rw [h1]
    exact buildIndex_nonempty _ _
  have hbd : ∀ kb ∈ c.dares_by_difficulty, kb.2 ≠ [] := by
    rw [h2]
    exact buildIndex_nonempty _ _
  refine ⟨?_, ?_, cache_truth_no_noData c hbt category n,
    cache_dare_no_noData c hbd difficulty m⟩
  · simp only [allBucketsNonempty, List.all_eq_true, decide_eq_true_eq]
    exact hbt
  · simp only [allBucketsNonempty, List.all_eq_true, decide_eq_true_eq]
    exact hbd

/-- Witness for claim C9 on a concretely loaded store. -/
theorem C9_no_empty_buckets_witness :
    loadedCache.WellLoaded ∧
    (allBucketsNonempty loadedCache.truths_by_category = true ∧
     allBucketsNonempty loadedCache.dares_by_difficulty = true ∧
     isNoDataErr (DataCache.get_truth_by_category loadedCache ("general".data) 0) = false ∧
     isNoDataErr (DataCache.get_dare_by_difficulty loadedCache ("easy".data) 0) = false) :=
  ⟨by decide, C9_no_empty_buckets loadedCache (by decide) ("general".data) ("easy".data) 0 0⟩

/-- Claim C10: a non-empty, all-whitespace input passes the emptiness
validation, normalizes to the empty string, and (given that no bucket
is keyed by the empty string, as with any data whose records carry
non-empty keys) raises `CategoryNotFoundError` /
`DifficultyNotFoundError` with status 404, not `ValidationError`
(status 422). -/
theorem C10_whitespace_input_404 (c : DataCache) (s : Str) (n m : Nat)
    (h1 : s ≠ []) (h2 : s.all Char.isWhitespace = true)
    (h3 : [] ∉ c.truths_by_category.map Prod.fst)
    (h4 : [] ∉ c.dares_by_difficulty.map Prod.fst) :
    pyNormalize s = [] ∧
    TruthService.get_truth_by_category c s n =
      Except.error (ApiError.categoryNotFound s
        (TruthService.get_available_categories c)) ∧
    DareService.get_dare_by_difficulty c s m =
      Except.error (ApiError.difficultyNotFound s
        (DareService.get_available_difficulties c)) ∧
    ApiError.status (ApiError.categoryNotFound s
      (TruthService.get_available_categories c)) = 404 ∧
    ApiError.status (ApiError.difficultyNotFound s
      (DareService.get_available_difficulties c)) = 404 := by
  have hn : pyNormalize s = [] := pyNormalize_ws_nil (List.all_eq_true.mp h2)
  refine ⟨hn, ?_, ?_, rfl, rfl⟩
  · refine truth_notFound c s n h1 ?_
    rw [hn]
    exact h3
  · refine dare_notFound c s m h1 ?_
    rw [hn]
    exact h4

/-- Witness for claim C10, at the whitespace-only input `"   "`. -/
theorem C10_whitespace_input_404_witness :
    ("   ".data : Str) ≠ [] ∧
    ("   ".data : Str).all Char.isWhitespace = true ∧
    ([] ∉ loadedCache.truths_by_category.map Prod.fst) ∧
    ([] ∉ loadedCache.dares_by_difficulty.map Prod.fst) ∧
    (pyNormalize ("   ".data) = [] ∧
     TruthService.get_truth_by_category loadedCache ("   ".data) 0 =
       Except.error (ApiError.categoryNotFound ("   ".data)
         (TruthService.get_available_categories loadedCache)) ∧
     DareService.get_dare_by_difficulty loadedCache ("   ".data) 0 =
       Except.error (ApiError.difficultyNotFound ("   ".data)
         (DareService.get_available_difficulties loadedCache)) ∧
     ApiError.status (ApiError.categoryNotFound ("   ".data)
       (TruthService.get_available_categories loadedCache)) = 404 ∧
     ApiError.status (ApiError.difficultyNotFound ("   ".data)
       (DareService.get_available_difficulties loadedCache)) = 404) :=
  ⟨by decide, by decide, by decide, by decide,
   C10_whitespace_input_404 loadedCache ("   ".data) 0 0
     (by decide) (by decide) (by decide) (by decide)⟩
